import Mathlib

/-!
# Verification of the stocky reward-to-ledger pipeline

Shallow embedding of the reward processing service
(`internal/services` / `internal/repository` of the stocky repository).

Modelling conventions:
* Go `float64` arithmetic is modelled as exact rational arithmetic over `ℚ`.
* `math.Round` (round half away from zero) is `mathRound` below.
* Timestamps (`time.Time` fields) are omitted: no claim mentions them.
* JSON (de)serialization of request/response payloads stored by the
  idempotency gate is modelled by storing the typed value itself
  (`json.Marshal` followed by `json.Unmarshal` round-trips these structs).
* The numeric width formatting of `fmt.Sprintf` (`%.6f`, `%.2f`) inside
  ledger-entry description strings is abstracted by `toString` of the
  rational; descriptions are not mentioned by any claim.
* The database is modelled as an explicit state (`DBState`); the only
  failure injection points the claims need are the price oracle and the
  ledger bulk insert, collected in `Env`.
-/

namespace Stocky

/-- Go `math.Round`: rounds to the nearest integer, halves away from zero.
Embeds `math.Round` from the Go standard library as used by
`roundToTwoDecimals`. -/
def mathRound (x : ℚ) : ℚ :=
  if x < 0 then -((⌊-x + 1/2⌋ : ℤ) : ℚ) else ((⌊x + 1/2⌋ : ℤ) : ℚ)

/-- Configuration of `RewardService`: `brokeragePercent` and `feePercent`
(percentages, defaults 0.1 and 0.05). -/
structure RewardService where
  brokeragePercent : ℚ
  feePercent : ℚ
deriving Repr, DecidableEq

/-- The default configuration from `NewRewardService` (no environment
overrides): 0.1 % brokerage, 0.05 % transaction fee. -/
def defaultRewardService : RewardService :=
  { brokeragePercent := 0.1, feePercent := 0.05 }

/-- Source `roundToTwoDecimals`: `math.Round(value*100) / 100`. -/
def RewardService.roundToTwoDecimals (_rs : RewardService) (value : ℚ) : ℚ :=
  mathRound (value * 100) / 100

/-- Source `calculateBrokerage`:
`fee := math.Abs(totalValue) * (rs.brokeragePercent / 100.0)`, rounded. -/
def RewardService.calculateBrokerage (rs : RewardService) (totalValue : ℚ) : ℚ :=
  rs.roundToTwoDecimals (|totalValue| * (rs.brokeragePercent / 100))

/-- Source `calculateTransactionFee`:
`fee := math.Abs(totalValue) * (rs.feePercent / 100.0)`, rounded. -/
def RewardService.calculateTransactionFee (rs : RewardService) (totalValue : ℚ) : ℚ :=
  rs.roundToTwoDecimals (|totalValue| * (rs.feePercent / 100))

/-- Incoming reward request (`services.RewardRequest`); the optional
`event_timestamp` is omitted (time is not modelled). Optional string fields
use `""` for absence exactly as in Go. -/
structure RewardRequest where
  userID : String
  stockSymbol : String
  quantity : ℚ
  eventID : String
  eventType : String
  notes : String
deriving Repr, DecidableEq

/-- Persisted reward (`models.Reward`), timestamps omitted. -/
structure Reward where
  id : Nat
  userID : String
  stockSymbol : String
  quantity : ℚ
  eventType : String
  eventID : String
  stockPrice : ℚ
  totalValueINR : ℚ
  brokerageFee : ℚ
  transactionFee : ℚ
  netValueINR : ℚ
  status : String
  notes : Option String
deriving Repr, DecidableEq

/-- One double-entry ledger line (`models.LedgerEntry`), timestamps and the
serial `id` column omitted. -/
structure LedgerEntry where
  rewardID : Nat
  userID : String
  entryType : String
  accountType : String
  amount : ℚ
  currency : String
  description : Option String
  referenceID : Option String
deriving Repr, DecidableEq

/-- Response returned by `ProcessReward` (`services.RewardResponse`),
timestamp omitted. -/
structure RewardResponse where
  rewardID : Nat
  userID : String
  stockSymbol : String
  quantity : ℚ
  stockPrice : ℚ
  totalValueINR : ℚ
  brokerageFee : ℚ
  transactionFee : ℚ
  netValueINR : ℚ
  eventID : String
  status : String
  message : String
deriving Repr, DecidableEq

/-- Idempotency record (`models.RewardRequest` the persisted one, table
`reward_requests`); payloads are stored as typed values (see header). -/
structure RewardRequestRecord where
  eventID : String
  userID : String
  stockSymbol : String
  quantity : ℚ
  requestPayload : RewardRequest
  responsePayload : Option RewardResponse
  status : String
deriving Repr, DecidableEq

/-- Source `validateRequest`; returns the error message of the
first failing check, in source order, or `none` when valid. -/
def validateRequest (req : RewardRequest) : Option String :=
  if req.userID = "" then some "user_id is required"
  else if req.stockSymbol = "" then some "stock_symbol is required"
  else if req.quantity = 0 then some "quantity cannot be zero"
  else if req.eventID = "" then some "event_id is required"
  else none

/-- Description string of the gross stock entry for a positive reward
(numeric formatting abstracted, see header). -/
def stockRewardDesc (r : Reward) : String :=
  "Stock reward: " ++ r.stockSymbol ++ " x " ++ toString r.quantity
    ++ " @ " ++ toString r.stockPrice ++ " INR"

/-- Description string of the reward-income entry. -/
def rewardIncomeDesc (r : Reward) : String :=
  "Reward income for event " ++ r.eventID

/-- Description string of the brokerage entries. -/
def brokerageDesc (r : Reward) : String :=
  "Brokerage fee for " ++ r.eventID

/-- Description string of the transaction-fee entries. -/
def feeDesc (r : Reward) : String :=
  "Transaction fee for " ++ r.eventID

/-- Description string of the gross stock entry for a negative reward. -/
def stockAdjustDesc (r : Reward) : String :=
  "Stock adjustment: " ++ r.stockSymbol ++ " x " ++ toString r.quantity
    ++ " @ " ++ toString r.stockPrice ++ " INR"

/-- Description string of the adjustment-expense entry. -/
def adjustmentDesc (r : Reward) : String :=
  "Stock adjustment for event " ++ r.eventID

/-- Source `createLedgerEntries`: the pure entry-generation part
(the trailing `ledgerRepo.BulkCreate` persistence call is modelled in
`processReward`). Branches and guards mirror the Go code. -/
def createLedgerEntries (reward : Reward) : List LedgerEntry :=
  if reward.quantity > 0 then
    [{ rewardID := reward.id, userID := reward.userID, entryType := "DEBIT",
       accountType := "STOCK_ASSET", amount := reward.totalValueINR,
       currency := "INR", description := some (stockRewardDesc reward),
       referenceID := some reward.eventID },
     { rewardID := reward.id, userID := reward.userID, entryType := "CREDIT",
       accountType := "REWARD_INCOME", amount := reward.totalValueINR,
       currency := "INR", description := some (rewardIncomeDesc reward),
       referenceID := some reward.eventID }]
    ++ (if reward.brokerageFee > 0 then
      [{ rewardID := reward.id, userID := reward.userID, entryType := "DEBIT",
         accountType := "BROKERAGE_EXPENSE", amount := reward.brokerageFee,
         currency := "INR", description := some (brokerageDesc reward),
         referenceID := some reward.eventID },
       { rewardID := reward.id, userID := reward.userID, entryType := "CREDIT",
         accountType := "CASH", amount := reward.brokerageFee,
         currency := "INR", description := some (brokerageDesc reward),
         referenceID := some reward.eventID }]
      else [])
    ++ (if reward.transactionFee > 0 then
      [{ rewardID := reward.id, userID := reward.userID, entryType := "DEBIT",
         accountType := "FEE_EXPENSE", amount := reward.transactionFee,
         currency := "INR", description := some (feeDesc reward),
         referenceID := some reward.eventID },
       { rewardID := reward.id, userID := reward.userID, entryType := "CREDIT",
         accountType := "CASH", amount := reward.transactionFee,
         currency := "INR", description := some (feeDesc reward),
         referenceID := some reward.eventID }]
      else [])
  else
    [{ rewardID := reward.id, userID := reward.userID, entryType := "CREDIT",
       accountType := "STOCK_ASSET", amount := |reward.totalValueINR|,
       currency := "INR", description := some (stockAdjustDesc reward),
       referenceID := some reward.eventID },
     { rewardID := reward.id, userID := reward.userID, entryType := "DEBIT",
       accountType := "ADJUSTMENT_EXPENSE", amount := |reward.totalValueINR|,
       currency := "INR", description := some (adjustmentDesc reward),
       referenceID := some reward.eventID }]

/-- Sum of the amounts of the entries of one side (`DEBIT` or `CREDIT`);
the quantity the double-entry balance law compares. -/
def sumSide (side : String) (es : List LedgerEntry) : ℚ :=
  (es.filter (fun e => e.entryType == side)).foldr (fun e acc => e.amount + acc) 0

/-- Database state: the rows visible to the service. `users` is the set of
existing user ids (`userRepo.Exists`), `requests` the `reward_requests`
table, `rewards` and `entries` the `rewards` and `ledger_entries` tables;
`nextRewardID` models the serial primary key of `rewards`. -/
structure DBState where
  users : List String
  requests : List RewardRequestRecord
  rewards : List Reward
  entries : List LedgerEntry
  nextRewardID : Nat
deriving Repr, DecidableEq

/-- Environment of one `ProcessReward` call: outcome of the price lookup
(`priceService.GetLatestPrice`, `none` = price unavailable after the
oracle's own fallback), and whether the ledger bulk insert
(`ledgerRepo.BulkCreate`) succeeds. -/
structure Env where
  price : String → Option ℚ
  ledgerOK : Bool

/-- Source `rewardRequestRepo.GetByEventID`: first row whose `event_id` matches,
or `none` (the Go method returns an error when no row exists). -/
def getByEventID (s : DBState) (eventID : String) : Option RewardRequestRecord :=
  s.requests.find? (fun r => r.eventID == eventID)

/-- Source `rewardRequestRepo.Create`: the `INSERT` into `reward_requests`; the
`UNIQUE` constraint on `event_id` makes it fail (`none`) when a row with
that `event_id` already exists. -/
def requestCreate (s : DBState) (rec : RewardRequestRecord) : Option DBState :=
  if s.requests.any (fun r => r.eventID == rec.eventID) then none
  else some { s with requests := s.requests ++ [rec] }

/-- Source `rewardRequestRepo.MarkProcessed`: `UPDATE reward_requests SET
response_payload = $1, status = 'COMPLETED' WHERE event_id = $2`; matching
zero rows is not an error. -/
def markProcessed (s : DBState) (eventID : String) (payload : RewardResponse) :
    DBState :=
  { s with requests := s.requests.map (fun r =>
      if r.eventID == eventID then
        { r with status := "COMPLETED", responsePayload := some payload }
      else r) }

/-- Source `rewardRepo.Create`: inserts the reward, returning the created row with
its serial id assigned. -/
def rewardCreate (s : DBState) (reward : Reward) : Reward × DBState :=
  let created := { reward with id := s.nextRewardID }
  (created, { s with rewards := s.rewards ++ [created],
                     nextRewardID := s.nextRewardID + 1 })

/-- The errors `ProcessReward` can return (each constructor corresponds to
one `fmt.Errorf` site in the source). -/
inductive ProcErr where
  /-- "validation failed: ..." wrapping the `validateRequest` message. -/
  | validation (msg : String)
  /-- "request already processing or failed". -/
  | duplicateRequest
  /-- "user %s does not exist". -/
  | userNotFound (userID : String)
  /-- "failed to create idempotency record". -/
  | idempotencyFailed
  /-- "failed to get stock price". -/
  | priceUnavailable
deriving Repr, DecidableEq

/-- Step 6 and step 7 value computation of `ProcessReward`: gross value,
fees, net value and the `models.Reward` row (pre-insert, id not yet
assigned). Mirrors the source: net is first computed as gross minus fees,
then overridden for negative quantities. -/
def buildReward (rs : RewardService) (req : RewardRequest) (price : ℚ) : Reward :=
  let totalValueINR := req.quantity * price
  let brokerageFee := rs.calculateBrokerage totalValueINR
  let transactionFee := rs.calculateTransactionFee totalValueINR
  let netValueINR := totalValueINR - brokerageFee - transactionFee
  let netValueINR := if req.quantity < 0 then
      totalValueINR + brokerageFee + transactionFee
    else netValueINR
  { id := 0
    userID := req.userID
    stockSymbol := req.stockSymbol
    quantity := req.quantity
    eventType := if req.eventType = "" then "REWARD" else req.eventType
    eventID := req.eventID
    stockPrice := price
    totalValueINR := totalValueINR
    brokerageFee := brokerageFee
    transactionFee := transactionFee
    netValueINR := netValueINR
    status := "COMPLETED"
    notes := if req.notes = "" then none else some req.notes }

/-- The success response built in step 9 of `ProcessReward`. -/
def mkResponse (created : Reward) : RewardResponse :=
  { rewardID := created.id
    userID := created.userID
    stockSymbol := created.stockSymbol
    quantity := created.quantity
    stockPrice := created.stockPrice
    totalValueINR := created.totalValueINR
    brokerageFee := created.brokerageFee
    transactionFee := created.transactionFee
    netValueINR := created.netValueINR
    eventID := created.eventID
    status := "SUCCESS"
    message := "Reward processed successfully" }

/-- The message substituted on a duplicate replay. -/
def duplicateMsg : String := "Duplicate request - returning previous result"

/-- Source `ProcessReward`, as a transition on `DBState` returning
the response or the error. Follows the Go control flow step by step:
validation; idempotency lookup (cached COMPLETED responses are replayed
with the duplicate message, anything else existing is an error);
user-existence check; idempotency-record creation; price lookup; value
computation; reward insert; ledger bulk insert whose failure is logged but
deliberately not propagated (the `// Don't fail the reward` comment in the
source); `MarkProcessed`, whose failure the source also ignores — not
modelled as failing here. -/
def processReward (rs : RewardService) (env : Env) (s : DBState)
    (req : RewardRequest) : Except ProcErr RewardResponse × DBState :=
  match validateRequest req with
  | some msg => (Except.error (ProcErr.validation msg), s)
  | none =>
    match getByEventID s req.eventID with
    | some existing =>
      if existing.status = "COMPLETED" then
        match existing.responsePayload with
        | some cached =>
            (Except.ok { cached with message := duplicateMsg }, s)
        | none => (Except.error ProcErr.duplicateRequest, s)
      else (Except.error ProcErr.duplicateRequest, s)
    | none =>
      if req.userID ∈ s.users then
        match requestCreate s
          { eventID := req.eventID, userID := req.userID,
            stockSymbol := req.stockSymbol, quantity := req.quantity,
            requestPayload := req, responsePayload := none,
            status := "PROCESSING" } with
        | none => (Except.error ProcErr.idempotencyFailed, s)
        | some s1 =>
          match env.price req.stockSymbol with
          | none => (Except.error ProcErr.priceUnavailable, s1)
          | some price =>
            let (created, s2) := rewardCreate s1 (buildReward rs req price)
            let entries := createLedgerEntries created
            let s3 := if env.ledgerOK then
                { s2 with entries := s2.entries ++ entries }
              else s2
            let response := mkResponse created
            (Except.ok response, markProcessed s3 req.eventID response)
      else (Except.error (ProcErr.userNotFound req.userID), s)

/-- Status of the idempotency record of an event id, if any. -/
def recordStatus (s : DBState) (eventID : String) : Option String :=
  (getByEventID s eventID).map (fun r => r.status)

/-- One step of an arbitrary interleaving: a `ProcessReward` call with its
own configuration, environment and request. -/
structure ProcStep where
  rs : RewardService
  env : Env
  req : RewardRequest

/-- Run a sequence of `ProcessReward` calls, threading the state. -/
def runAll (steps : List ProcStep) (s : DBState) : DBState :=
  steps.foldl (fun s step => (processReward step.rs step.env s step.req).2) s

/-- Spec-side rounding, written from the spec's words ("`round2` rounds to
the nearest hundredth using round-half-away-from-zero semantics"),
independently of the source's `math.Round`-based implementation: scale to
hundredths, round halves away from zero — floor of `+1/2` for nonnegative
values, ceiling of `−1/2` for negative ones — and scale back. -/
def round2Spec (x : ℚ) : ℚ :=
  (if 0 ≤ x then ((⌊x * 100 + 1/2⌋ : ℤ) : ℚ) else ((⌈x * 100 - 1/2⌉ : ℤ) : ℚ)) / 100

/-- The admissible moves of the idempotency status of one event id across
a single `ProcessReward` call, per the spec's state machine
`∅ → PROCESSING → COMPLETED`: unchanged, or a forward move. -/
def statusStep (before after : Option String) : Prop :=
  after = before ∨
  (before = none ∧ (after = some "PROCESSING" ∨ after = some "COMPLETED")) ∨
  (before = some "PROCESSING" ∧ after = some "COMPLETED")

/-! ### Concrete fixtures used by the witness and counterexample theorems -/

/-- A valid positive-quantity request. -/
def reqPos : RewardRequest :=
  { userID := "user-1", stockSymbol := "RELIANCE", quantity := 3,
    eventID := "evt-pos", eventType := "", notes := "" }

/-- A valid negative-quantity request (the −5 @ 100 spec example). -/
def reqNeg : RewardRequest :=
  { userID := "user-1", stockSymbol := "ACME", quantity := -5,
    eventID := "evt-neg", eventType := "", notes := "" }

/-- The reward the service builds for `reqNeg` at unit price 100. -/
def rewardNeg : Reward := buildReward defaultRewardService reqNeg 100

/-- An invalid request (empty user id). -/
def reqInvalid : RewardRequest :=
  { userID := "", stockSymbol := "ACME", quantity := 1,
    eventID := "evt-inv", eventType := "", notes := "" }

/-- An environment whose price oracle always answers 100 and whose ledger
insert succeeds. -/
def envOK : Env := { price := fun _ => some 100, ledgerOK := true }

/-- An environment whose price oracle answers 100 but whose ledger bulk
insert fails. -/
def envLedgerDown : Env := { price := fun _ => some 100, ledgerOK := false }

/-- An empty database with one known user. -/
def dbEmpty : DBState :=
  { users := ["user-1"], requests := [], rewards := [], entries := [],
    nextRewardID := 1 }

/-- A cached response, as left behind by a completed run. -/
def cachedResp : RewardResponse :=
  { rewardID := 1, userID := "user-1", stockSymbol := "RELIANCE",
    quantity := 3, stockPrice := 100, totalValueINR := 300,
    brokerageFee := 0.3, transactionFee := 0.15, netValueINR := 299.55,
    eventID := "evt-pos", status := "SUCCESS",
    message := "Reward processed successfully" }

/-- A database holding a COMPLETED idempotency record for `evt-pos` with
`cachedResp` cached. -/
def dbCompleted : DBState :=
  { users := ["user-1"],
    requests := [{ eventID := "evt-pos", userID := "user-1",
                   stockSymbol := "RELIANCE", quantity := 3,
                   requestPayload := reqPos,
                   responsePayload := some cachedResp,
                   status := "COMPLETED" }],
    rewards := [], entries := [], nextRewardID := 2 }

/-- A database holding a stuck PROCESSING record for `evt-pos` (as left by
a run that reserved and then failed). -/
def dbStuck : DBState :=
  { users := ["user-1"],
    requests := [{ eventID := "evt-pos", userID := "user-1",
                   stockSymbol := "RELIANCE", quantity := 3,
                   requestPayload := reqPos,
                   responsePayload := none,
                   status := "PROCESSING" }],
    rewards := [], entries := [], nextRewardID := 2 }

/-- A syntactically arbitrary but well-formed persisted reward used by the
well-formedness witness. -/
def rewardFixture : Reward :=
  { id := 7, userID := "user-9", stockSymbol := "TCS", quantity := 2,
    eventType := "REWARD", eventID := "evt-wf", stockPrice := 50,
    totalValueINR := 100, brokerageFee := 0.1, transactionFee := 0.05,
    netValueINR := 99.85, status := "COMPLETED", notes := none }

/-- The first ledger entry generated for `rewardFixture`. -/
def fixtureEntry : LedgerEntry :=
  { rewardID := 7, userID := "user-9", entryType := "DEBIT",
    accountType := "STOCK_ASSET", amount := 100, currency := "INR",
    description := some (stockRewardDesc rewardFixture),
    referenceID := some "evt-wf" }

/-! ### Helper lemmas -/

/-- Rounding `mathRound` fixes integers. -/
theorem mathRound_intCast (n : ℤ) : mathRound (n : ℚ) = n := by
  have h2 : ⌊(1/2 : ℚ)⌋ = 0 := by norm_num
  unfold mathRound
  split_ifs with h
  · rw [show -(n:ℚ) + 1/2 = ((-n : ℤ) : ℚ) + 1/2 by push_cast; ring,
      Int.floor_int_add, h2]
    push_cast
    ring
  · rw [Int.floor_int_add, h2]
    push_cast
    ring

/-- Rounding `mathRound` always produces an integer value. -/
theorem mathRound_exists_int (x : ℚ) : ∃ n : ℤ, mathRound x = (n : ℚ) := by
  unfold mathRound
  split_ifs
  · exact ⟨-⌊-x + 1/2⌋, by push_cast; ring⟩
  · exact ⟨⌊x + 1/2⌋, rfl⟩

/-- The source rounding agrees with the spec-side rounding. -/
theorem roundToTwoDecimals_eq_round2Spec (rs : RewardService) (x : ℚ) :
    rs.roundToTwoDecimals x = round2Spec x := by
  unfold RewardService.roundToTwoDecimals round2Spec mathRound
  rcases lt_or_le (x * 100) 0 with h | h
  · have hx : ¬ (0 : ℚ) ≤ x := by intro hx; nlinarith
    rw [if_pos h, if_neg hx]
    have hc : -⌊-(x * 100) + 1/2⌋ = ⌈x * 100 - 1/2⌉ := by
      have hf := Int.floor_neg (a := x * 100 - 1/2)
      rw [show -(x * 100 - 1/2) = -(x * 100) + 1/2 by ring] at hf
      omega
    rw [show -((⌊-(x * 100) + 1/2⌋ : ℤ) : ℚ) = ((-⌊-(x * 100) + 1/2⌋ : ℤ) : ℚ) by
      push_cast; ring, hc]
  · have hx : (0 : ℚ) ≤ x := by nlinarith
    rw [if_neg (not_lt.mpr h), if_pos hx]

/-! ### C1 — double-entry balance of the generated ledger entries -/

/-- C1: for every reward (in particular every reward with non-zero quantity
and service-computed fees), the entries produced by `createLedgerEntries`
satisfy the double-entry balance law: the DEBIT amounts and the CREDIT
amounts sum to the same value. -/
theorem ledger_double_entry_balance (r : Reward) :
    sumSide "DEBIT" (createLedgerEntries r) =
      sumSide "CREDIT" (createLedgerEntries r) := by
  unfold createLedgerEntries sumSide
  split_ifs <;> simp

/-! ### C9 — idempotence of the rounding function -/

/-- C9: `roundToTwoDecimals` is idempotent: rounding an already-rounded
value changes nothing. -/
theorem roundToTwoDecimals_idempotent (rs : RewardService) (x : ℚ) :
    rs.roundToTwoDecimals (rs.roundToTwoDecimals x) = rs.roundToTwoDecimals x := by
  obtain ⟨n, hn⟩ := mathRound_exists_int (x * 100)
  unfold RewardService.roundToTwoDecimals
  rw [hn, div_mul_cancel₀ _ (by norm_num : (100:ℚ) ≠ 0), mathRound_intCast]

/-! ### C5 — fee calculator against the spec's rounding and worked example -/

/-- C5: at the default rates, the brokerage fee is the spec-side rounding of
0.1 % of the absolute amount and the transaction fee of 0.05 % of it; the
worked example 10.5 @ 175.50 gives gross 1842.75, brokerage 1.84, fee 0.92
and net 1839.99; and halves round away from zero in both directions. -/
theorem fee_calculator_matches_spec :
    (∀ amt : ℚ, defaultRewardService.calculateBrokerage amt
        = round2Spec (|amt| * (1/1000))) ∧
    (∀ amt : ℚ, defaultRewardService.calculateTransactionFee amt
        = round2Spec (|amt| * (1/2000))) ∧
    ((10.5 : ℚ) * 175.50 = 1842.75) ∧
    defaultRewardService.calculateBrokerage 1842.75 = 1.84 ∧
    defaultRewardService.calculateTransactionFee 1842.75 = 0.92 ∧
    ((1842.75 : ℚ) - 1.84 - 0.92 = 1839.99) ∧
    defaultRewardService.roundToTwoDecimals 0.125 = 0.13 ∧
    defaultRewardService.roundToTwoDecimals (-0.125) = -0.13 := by
  refine ⟨fun amt => ?_, fun amt => ?_, by norm_num, ?_, ?_, by norm_num, ?_, ?_⟩
  · rw [RewardService.calculateBrokerage, roundToTwoDecimals_eq_round2Spec]
    norm_num [defaultRewardService]
  · rw [RewardService.calculateTransactionFee, roundToTwoDecimals_eq_round2Spec]
    norm_num [defaultRewardService]
  · norm_num [RewardService.calculateBrokerage, RewardService.roundToTwoDecimals,
      mathRound, defaultRewardService, abs_of_pos]
  · norm_num [RewardService.calculateTransactionFee, RewardService.roundToTwoDecimals,
      mathRound, defaultRewardService, abs_of_pos]
  · norm_num [RewardService.roundToTwoDecimals, mathRound]
  · norm_num [RewardService.roundToTwoDecimals, mathRound]

/-! ### C4 — net value formula -/

/-- C4: the reward the service builds has gross value quantity × unit
price; its net value is gross minus both fees for positive quantities and
gross plus both fees for negative quantities. -/
theorem reward_net_value (rs : RewardService) (req : RewardRequest) (price : ℚ) :
    (buildReward rs req price).totalValueINR = req.quantity * price ∧
    (0 < req.quantity →
      (buildReward rs req price).netValueINR =
        (buildReward rs req price).totalValueINR
          - (buildReward rs req price).brokerageFee
          - (buildReward rs req price).transactionFee) ∧
    (req.quantity < 0 →
      (buildReward rs req price).netValueINR =
        (buildReward rs req price).totalValueINR
          + (buildReward rs req price).brokerageFee
          + (buildReward rs req price).transactionFee) := by
  refine ⟨rfl, fun h => ?_, fun h => ?_⟩
  · simp [buildReward, not_lt.mpr h.le]
  · simp [buildReward, h]

/-- Witness for C4 at quantity 3 (positive) and −5 (negative). -/
theorem reward_net_value_witness :
    ((buildReward defaultRewardService reqPos 100).netValueINR =
      (buildReward defaultRewardService reqPos 100).totalValueINR
        - (buildReward defaultRewardService reqPos 100).brokerageFee
        - (buildReward defaultRewardService reqPos 100).transactionFee) ∧
    ((buildReward defaultRewardService reqNeg 100).netValueINR =
      (buildReward defaultRewardService reqNeg 100).totalValueINR
        + (buildReward defaultRewardService reqNeg 100).brokerageFee
        + (buildReward defaultRewardService reqNeg 100).transactionFee) :=
  ⟨(reward_net_value defaultRewardService reqPos 100).2.1 (by norm_num [reqPos]),
   (reward_net_value defaultRewardService reqNeg 100).2.2 (by norm_num [reqNeg])⟩

/-! ### C6 — negative rewards produce exactly the two adjustment entries -/

/-- C6: for a negative-quantity reward the generator emits exactly two
entries — CREDIT STOCK_ASSET and DEBIT ADJUSTMENT_EXPENSE, both for the
absolute gross value — and no fee entries, whatever the computed fees. -/
theorem negative_reward_ledger (r : Reward) (h : r.quantity < 0) :
    createLedgerEntries r =
      [{ rewardID := r.id, userID := r.userID, entryType := "CREDIT",
         accountType := "STOCK_ASSET", amount := |r.totalValueINR|,
         currency := "INR", description := some (stockAdjustDesc r),
         referenceID := some r.eventID },
       { rewardID := r.id, userID := r.userID, entryType := "DEBIT",
         accountType := "ADJUSTMENT_EXPENSE", amount := |r.totalValueINR|,
         currency := "INR", description := some (adjustmentDesc r),
         referenceID := some r.eventID }] := by
  unfold createLedgerEntries
  rw [if_neg (not_lt.mpr h.le)]

/-- Witness for C6: quantity −5 @ price 100 yields CREDIT STOCK_ASSET
500.00 and DEBIT ADJUSTMENT_EXPENSE 500.00 and nothing else. -/
theorem negative_reward_ledger_witness :
    (createLedgerEntries rewardNeg).map (fun e => (e.entryType, e.accountType, e.amount)) =
      [("CREDIT", "STOCK_ASSET", (500 : ℚ)),
       ("DEBIT", "ADJUSTMENT_EXPENSE", (500 : ℚ))] := by
  rw [negative_reward_ledger rewardNeg
    (by norm_num [rewardNeg, buildReward, reqNeg])]
  norm_num [rewardNeg, buildReward, reqNeg]

/-! ### C10 — well-formedness of every generated entry -/

/-- C10: when the gross value is quantity × unit price and the unit price
is non-negative, every generated entry has a non-negative amount, currency
INR, and carries the reward's id, user id and event id. -/
theorem ledger_entries_wellformed (r : Reward)
    (h1 : r.totalValueINR = r.quantity * r.stockPrice)
    (h2 : 0 ≤ r.stockPrice) :
    ∀ e ∈ createLedgerEntries r,
      0 ≤ e.amount ∧ e.currency = "INR" ∧ e.rewardID = r.id ∧
      e.userID = r.userID ∧ e.referenceID = some r.eventID := by
  intro e he
  unfold createLedgerEntries at he
  split_ifs at he with hq hb hf hf
  · have htot : 0 ≤ r.totalValueINR := h1 ▸ mul_nonneg hq.le h2
    simp only [List.mem_append, List.mem_cons, List.not_mem_nil, or_false] at he
    rcases he with ((rfl | rfl) | rfl | rfl) | rfl | rfl <;>
      exact ⟨by first | exact htot | exact hb.le | exact hf.le, rfl, rfl, rfl, rfl⟩
  · have htot : 0 ≤ r.totalValueINR := h1 ▸ mul_nonneg hq.le h2
    simp only [List.mem_append, List.mem_cons, List.not_mem_nil, or_false] at he
    rcases he with (rfl | rfl) | rfl | rfl <;>
      exact ⟨by first | exact htot | exact hb.le, rfl, rfl, rfl, rfl⟩
  · have htot : 0 ≤ r.totalValueINR := h1 ▸ mul_nonneg hq.le h2
    simp only [List.mem_append, List.mem_cons, List.not_mem_nil, or_false] at he
    rcases he with (rfl | rfl) | rfl | rfl <;>
      exact ⟨by first | exact htot | exact hf.le, rfl, rfl, rfl, rfl⟩
  · have htot : 0 ≤ r.totalValueINR := h1 ▸ mul_nonneg hq.le h2
    simp only [List.mem_append, List.mem_cons, List.not_mem_nil, or_false] at he
    rcases he with rfl | rfl <;> exact ⟨htot, rfl, rfl, rfl, rfl⟩
  · simp only [List.mem_cons, List.not_mem_nil, or_false] at he
    rcases he with rfl | rfl <;> exact ⟨abs_nonneg _, rfl, rfl, rfl, rfl⟩

/-- Witness for C10 at `rewardFixture` and its first generated entry. -/
theorem ledger_entries_wellformed_witness :
    0 ≤ fixtureEntry.amount ∧ fixtureEntry.currency = "INR" ∧
    fixtureEntry.rewardID = rewardFixture.id ∧
    fixtureEntry.userID = rewardFixture.userID ∧
    fixtureEntry.referenceID = some rewardFixture.eventID :=
  ledger_entries_wellformed rewardFixture
    (by norm_num [rewardFixture]) (by norm_num [rewardFixture])
    fixtureEntry
    (by norm_num [createLedgerEntries, rewardFixture, fixtureEntry, stockRewardDesc])

/-! ### C2 — replay of a COMPLETED event returns the cached response -/

/-- C2: when the idempotency record of the submitted event id is COMPLETED
with a cached response, `ProcessReward` returns that response with only the
message replaced by the duplicate annotation, touches no state, and does
not error. -/
theorem completed_replay (rs : RewardService) (env : Env) (s : DBState)
    (req : RewardRequest) (rec : RewardRequestRecord) (resp : RewardResponse)
    (hval : validateRequest req = none)
    (hget : getByEventID s req.eventID = some rec)
    (hstatus : rec.status = "COMPLETED")
    (hpayload : rec.responsePayload = some resp) :
    processReward rs env s req =
      (Except.ok { resp with message := duplicateMsg }, s) := by
  simp [processReward, hval, hget, hstatus, hpayload]

/-- Witness for C2: replaying `evt-pos` against `dbCompleted` returns the
cached response annotated as a duplicate and leaves the state unchanged. -/
theorem completed_replay_witness :
    processReward defaultRewardService envOK dbCompleted reqPos =
      (Except.ok { cachedResp with message := duplicateMsg }, dbCompleted) :=
  completed_replay defaultRewardService envOK dbCompleted reqPos _ cachedResp
    (by simp [validateRequest, reqPos]) rfl rfl rfl

/-! ### C7 — validation failures reject with no state change -/

/-- C7: an empty user id, instrument symbol or event id, or a zero
quantity, makes `ProcessReward` fail with a validation error and leave the
state exactly as it was: no idempotency record, reward or ledger entry is
written. -/
theorem validation_rejects_without_side_effects (rs : RewardService)
    (env : Env) (s : DBState) (req : RewardRequest)
    (h : req.userID = "" ∨ req.stockSymbol = "" ∨ req.eventID = "" ∨
      req.quantity = 0) :
    ∃ msg, processReward rs env s req =
      (Except.error (ProcErr.validation msg), s) := by
  have hv : ∃ msg, validateRequest req = some msg := by
    unfold validateRequest
    split_ifs <;> first | exact ⟨_, rfl⟩ | tauto
  obtain ⟨msg, hm⟩ := hv
  exact ⟨msg, by simp [processReward, hm]⟩

/-- Witness for C7 at a request with an empty user id. -/
theorem validation_rejects_witness :
    ∃ msg, processReward defaultRewardService envOK dbEmpty reqInvalid =
      (Except.error (ProcErr.validation msg), dbEmpty) :=
  validation_rejects_without_side_effects defaultRewardService envOK dbEmpty
    reqInvalid (Or.inl rfl)

/-! ### C3 — ledger persistence failure is swallowed (code bug) -/

/-- C3 (divergence witness): with a failing ledger bulk insert,
`ProcessReward` on a valid fresh request still returns a success response,
and leaves the reward persisted with zero ledger entries — the source logs
the failure instead of returning the `PersistenceFailure` the spec
requires. -/
theorem ledger_failure_swallowed :
    (processReward defaultRewardService envLedgerDown dbEmpty reqPos).1 =
      Except.ok cachedResp ∧
    (processReward defaultRewardService envLedgerDown dbEmpty reqPos).2.rewards ≠ [] ∧
    (processReward defaultRewardService envLedgerDown dbEmpty reqPos).2.entries = [] := by
  refine ⟨?_, ?_, ?_⟩ <;>
    simp [processReward, validateRequest, reqPos, dbEmpty, getByEventID,
      requestCreate, envLedgerDown, rewardCreate, markProcessed, buildReward,
      mkResponse, cachedResp, RewardService.calculateBrokerage,
      RewardService.calculateTransactionFee, RewardService.roundToTwoDecimals,
      mathRound, defaultRewardService]
  all_goals norm_num

/-! ### C8 — idempotency state machine and permanently stuck PROCESSING -/

/-- Searching with `find?` commutes with a map that does not move the searched key. -/
theorem find?_map_eventID (f : RewardRequestRecord → RewardRequestRecord)
    (hf : ∀ r, (f r).eventID = r.eventID) (l : List RewardRequestRecord)
    (e : String) :
    (l.map f).find? (fun r => r.eventID == e) =
      (l.find? (fun r => r.eventID == e)).map f := by
  induction l with
  | nil => rfl
  | cons a l ih =>
    rw [List.map_cons, List.find?_cons, List.find?_cons, hf a]
    cases hpb : (a.eventID == e)
    · simpa using ih
    · rfl

/-- The per-record update of `markProcessed` never changes `eventID`. -/
theorem markProcessedFun_eventID (eid : String) (p : RewardResponse) :
    ∀ r : RewardRequestRecord,
      (if r.eventID == eid then
        { r with status := "COMPLETED", responsePayload := some p }
       else r).eventID = r.eventID := by
  intro r
  by_cases h : (r.eventID == eid) = true <;> simp [h]

/-- Updating via `markProcessed` leaves the records of other event ids untouched. -/
theorem recordStatus_markProcessed_ne (s : DBState) (eid : String)
    (p : RewardResponse) (e : String) (hne : e ≠ eid) :
    recordStatus (markProcessed s eid p) e = recordStatus s e := by
  unfold recordStatus getByEventID markProcessed
  rw [find?_map_eventID _ (markProcessedFun_eventID eid p)]
  cases hfind : s.requests.find? (fun r => r.eventID == e) with
  | none => rfl
  | some rec =>
    have hfound : (rec.eventID == e) = true :=
      @List.find?_some _ (fun r => r.eventID == e) rec s.requests hfind
    have hrec : rec.eventID = e := beq_iff_eq.mp hfound
    have hb : (rec.eventID == eid) = false := by
      rw [hrec]; exact beq_eq_false_iff_ne.mpr hne
    simp [hb, beq_eq_false_iff_ne.mp hb]

/-- Updating via `markProcessed` turns the found record of its own event id COMPLETED. -/
theorem getByEventID_markProcessed_self (s : DBState) (eid : String)
    (p : RewardResponse) (rec : RewardRequestRecord)
    (h : getByEventID s eid = some rec) :
    getByEventID (markProcessed s eid p) eid =
      some { rec with status := "COMPLETED", responsePayload := some p } := by
  unfold getByEventID markProcessed
  rw [find?_map_eventID _ (markProcessedFun_eventID eid p)]
  unfold getByEventID at h
  rw [h, Option.map_some']
  have hb : (rec.eventID == eid) = true :=
    @List.find?_some _ (fun r => r.eventID == eid) rec s.requests h
  simp [hb]

/-- Unpacking a successful `requestCreate`: the event id was absent and the
new state is the old one with the record appended. -/
theorem requestCreate_eq_some {s s' : DBState} {rec : RewardRequestRecord}
    (h : requestCreate s rec = some s') :
    s.requests.find? (fun r => r.eventID == rec.eventID) = none ∧
    s' = { s with requests := s.requests ++ [rec] } := by
  unfold requestCreate at h
  by_cases hc : (s.requests.any fun r => r.eventID == rec.eventID) = true
  · rw [if_pos hc] at h
    cases h
  · rw [if_neg hc] at h
    injection h with h
    subst h
    exact ⟨List.find?_eq_none.mpr
      (fun x hx hpx => hc (List.any_eq_true.mpr ⟨x, hx, hpx⟩)), rfl⟩

/-- The lookup `recordStatus` only looks at the requests table. -/
theorem recordStatus_congr_requests (s s' : DBState)
    (h : s'.requests = s.requests) (e : String) :
    recordStatus s' e = recordStatus s e := by
  unfold recordStatus getByEventID
  rw [h]

/-- The lookup `getByEventID` only looks at the requests table. -/
theorem getByEventID_congr_requests (s s' : DBState)
    (h : s'.requests = s.requests) (e : String) :
    getByEventID s' e = getByEventID s e := by
  unfold getByEventID
  rw [h]

/-- One `ProcessReward` call can neither unstick nor complete a PROCESSING
record: the status stays PROCESSING, and a call that targets that very
event id returns an error. -/
theorem stuck_processing_step (rs : RewardService) (env : Env) (s : DBState)
    (req : RewardRequest) (e : String)
    (h : recordStatus s e = some "PROCESSING") :
    recordStatus (processReward rs env s req).2 e = some "PROCESSING" ∧
    (req.eventID = e → ∃ err, (processReward rs env s req).1 = Except.error err) := by
  obtain ⟨rec, hrec, hst⟩ :
      ∃ rec, getByEventID s e = some rec ∧ rec.status = "PROCESSING" := by
    unfold recordStatus at h
    cases hg : getByEventID s e with
    | none => rw [hg] at h; cases h
    | some r => rw [hg, Option.map_some'] at h; exact ⟨r, rfl, by injection h⟩
  cases hv : validateRequest req with
  | some msg =>
    constructor
    · simpa [processReward, hv] using h
    · exact fun _ => ⟨ProcErr.validation msg, by simp [processReward, hv]⟩
  | none =>
    by_cases heq : req.eventID = e
    · have hget : getByEventID s req.eventID = some rec := by rw [heq]; exact hrec
      have hne : ¬ rec.status = "COMPLETED" := by rw [hst]; decide
      constructor
      · simpa [processReward, hv, hget, hne] using h
      · exact fun _ => ⟨ProcErr.duplicateRequest, by simp [processReward, hv, hget, hne]⟩
    · refine ⟨?_, fun hcontra => absurd hcontra heq⟩
      cases hget : getByEventID s req.eventID with
      | some ex =>
        by_cases hc : ex.status = "COMPLETED"
        · cases hp : ex.responsePayload with
          | some cached => simpa [processReward, hv, hget, hc, hp] using h
          | none => simpa [processReward, hv, hget, hc, hp] using h
        · simpa [processReward, hv, hget, hc] using h
      | none =>
        by_cases hu : req.userID ∈ s.users
        · cases hcr : requestCreate s
            { eventID := req.eventID, userID := req.userID,
              stockSymbol := req.stockSymbol, quantity := req.quantity,
              requestPayload := req, responsePayload := none,
              status := "PROCESSING" } with
          | none => simpa [processReward, hv, hget, hu, hcr] using h
          | some s1 =>
            obtain ⟨-, hs1⟩ := requestCreate_eq_some hcr
            have hfind1 : getByEventID s1 e = some rec := by
              rw [hs1]
              unfold getByEventID at hrec ⊢
              rw [List.find?_append, hrec]
              rfl
            have hs1status : recordStatus s1 e = some "PROCESSING" := by
              unfold recordStatus
              rw [hfind1, Option.map_some', hst]
            cases hpr : env.price req.stockSymbol with
            | none =>
              have hstate : (processReward rs env s req).2 = s1 := by
                simp [processReward, hv, hget, hu, hcr, hpr]
              rw [hstate]
              exact hs1status
            | some price =>
              have hne' : e ≠ req.eventID := fun hh => heq hh.symm
              have hmk : ∀ (t : DBState) (p : RewardResponse),
                  recordStatus (markProcessed t req.eventID p) e = recordStatus t e :=
                fun t p => recordStatus_markProcessed_ne t req.eventID p e hne'
              have hcongr : ∀ t : DBState, t.requests = s1.requests →
                  recordStatus t e = some "PROCESSING" :=
                fun t ht => (recordStatus_congr_requests s1 t ht e).trans hs1status
              simp [processReward, hv, hget, hu, hcr, hpr, rewardCreate, hmk]
              split_ifs <;> exact hcongr _ rfl
        · simpa [processReward, hv, hget, hu] using h

/-- A stuck PROCESSING record survives any sequence of `ProcessReward`
calls. -/
theorem stuck_processing_runAll (steps : List ProcStep) (s : DBState)
    (e : String) (h : recordStatus s e = some "PROCESSING") :
    recordStatus (runAll steps s) e = some "PROCESSING" := by
  induction steps generalizing s with
  | nil => exact h
  | cons st rest ih =>
    exact ih _ ((stuck_processing_step st.rs st.env s st.req e h).1)

/-- The status of any event id moves only forward across one
`ProcessReward` call: unchanged, or `∅ → PROCESSING`, `∅ → COMPLETED`
(reserve and complete inside one call), or `PROCESSING → COMPLETED`. -/
theorem statusStep_processReward (rs : RewardService) (env : Env)
    (s : DBState) (req : RewardRequest) (e : String) :
    statusStep (recordStatus s e) (recordStatus (processReward rs env s req).2 e) := by
  cases hv : validateRequest req with
  | some msg => exact Or.inl (by simp [processReward, hv])
  | none =>
    cases hget : getByEventID s req.eventID with
    | some ex =>
      by_cases hc : ex.status = "COMPLETED"
      · cases hp : ex.responsePayload with
        | some cached => exact Or.inl (by simp [processReward, hv, hget, hc, hp])
        | none => exact Or.inl (by simp [processReward, hv, hget, hc, hp])
      · exact Or.inl (by simp [processReward, hv, hget, hc])
    | none =>
      by_cases hu : req.userID ∈ s.users
      · cases hcr : requestCreate s
          { eventID := req.eventID, userID := req.userID,
            stockSymbol := req.stockSymbol, quantity := req.quantity,
            requestPayload := req, responsePayload := none,
            status := "PROCESSING" } with
        | none => exact Or.inl (by simp [processReward, hv, hget, hu, hcr])
        | some s1 =>
          obtain ⟨hnone, hs1⟩ := requestCreate_eq_some hcr
          by_cases heq : req.eventID = e
          · have hbefore : recordStatus s e = none := by
              unfold recordStatus
              rw [← heq, hget]
              rfl
            have hfind1 : getByEventID s1 e =
                some { eventID := req.eventID, userID := req.userID,
                       stockSymbol := req.stockSymbol, quantity := req.quantity,
                       requestPayload := req, responsePayload := none,
                       status := "PROCESSING" } := by
              rw [hs1]
              unfold getByEventID
              rw [List.find?_append]
              rw [show s.requests.find? (fun r => r.eventID == e) = none by
                rw [← heq]; exact hnone]
              simp [heq]
            cases hpr : env.price req.stockSymbol with
            | none =>
              refine Or.inr (Or.inl ⟨hbefore, Or.inl ?_⟩)
              have hstate : (processReward rs env s req).2 = s1 := by
                simp [processReward, hv, hget, hu, hcr, hpr]
              rw [hstate]
              unfold recordStatus
              rw [hfind1, Option.map_some']
            | some price =>
              refine Or.inr (Or.inl ⟨hbefore, Or.inr ?_⟩)
              have hself : ∀ (t : DBState) (p : RewardResponse),
                  t.requests = s1.requests →
                  recordStatus (markProcessed t req.eventID p) e =
                    some "COMPLETED" := by
                intro t p ht
                have hfound := (getByEventID_congr_requests s1 t ht e).trans hfind1
                rw [← heq] at hfound
                unfold recordStatus
                rw [← heq, getByEventID_markProcessed_self t req.eventID p _ hfound,
                  Option.map_some']
              simp [processReward, hv, hget, hu, hcr, hpr, rewardCreate]
              split_ifs <;> exact hself _ _ rfl
          · have hne' : e ≠ req.eventID := fun hh => heq hh.symm
            refine Or.inl ?_
            have hsame : recordStatus s1 e = recordStatus s e := by
              rw [hs1]
              unfold recordStatus getByEventID
              rw [List.find?_append]
              rw [show List.find? (fun r => r.eventID == e)
                  [({ eventID := req.eventID, userID := req.userID,
                      stockSymbol := req.stockSymbol, quantity := req.quantity,
                      requestPayload := req, responsePayload := none,
                      status := "PROCESSING" } : RewardRequestRecord)] = none by
                simp [heq]]
              cases s.requests.find? (fun r => r.eventID == e) <;> rfl
            cases hpr : env.price req.stockSymbol with
            | none =>
              have hstate : (processReward rs env s req).2 = s1 := by
                simp [processReward, hv, hget, hu, hcr, hpr]
              rw [hstate]
              exact hsame
            | some price =>
              have hmk : ∀ (t : DBState) (p : RewardResponse),
                  recordStatus (markProcessed t req.eventID p) e = recordStatus t e :=
                fun t p => recordStatus_markProcessed_ne t req.eventID p e hne'
              have hcongr2 : ∀ t : DBState, t.requests = s1.requests →
                  recordStatus t e = recordStatus s e :=
                fun t ht => (recordStatus_congr_requests s1 t ht e).trans hsame
              simp [processReward, hv, hget, hu, hcr, hpr, rewardCreate, hmk]
              split_ifs <;> exact hcongr2 _ rfl
      · exact Or.inl (by simp [processReward, hv, hget, hu])

/-- C8: the idempotency status of an event id only ever moves forward along
`∅ → PROCESSING → COMPLETED`; and once a record is stuck in PROCESSING (a
run failed after its reserve), it stays PROCESSING across any sequence of
further calls and every `ProcessReward` call for that event id returns an
error — no retry of that event id can ever succeed. -/
theorem idempotency_state_machine :
    (∀ (rs : RewardService) (env : Env) (s : DBState) (req : RewardRequest)
        (e : String),
      statusStep (recordStatus s e) (recordStatus (processReward rs env s req).2 e)) ∧
    (∀ (s : DBState) (e : String), recordStatus s e = some "PROCESSING" →
      ∀ steps : List ProcStep,
        recordStatus (runAll steps s) e = some "PROCESSING" ∧
        ∀ (rs : RewardService) (env : Env) (req : RewardRequest),
          req.eventID = e →
          ∃ err, (processReward rs env (runAll steps s) req).1 = Except.error err) := by
  refine ⟨statusStep_processReward, fun s e h steps => ?_⟩
  have hrun := stuck_processing_runAll steps s e h
  exact ⟨hrun, fun rs env req heq =>
    (stuck_processing_step rs env (runAll steps s) req e hrun).2 heq⟩

/-- Witness for C8: with `evt-pos` stuck in PROCESSING, after an unrelated
successful call the record is still PROCESSING and a retry of `evt-pos`
errors. -/
theorem idempotency_state_machine_witness :
    recordStatus (runAll [⟨defaultRewardService, envOK, reqNeg⟩] dbStuck)
      "evt-pos" = some "PROCESSING" ∧
    ∃ err, (processReward defaultRewardService envOK
      (runAll [⟨defaultRewardService, envOK, reqNeg⟩] dbStuck) reqPos).1 =
        Except.error err := by
  have h := idempotency_state_machine.2 dbStuck "evt-pos"
    (by simp [recordStatus, getByEventID, dbStuck])
    [⟨defaultRewardService, envOK, reqNeg⟩]
  exact ⟨h.1, h.2 defaultRewardService envOK reqPos rfl⟩

end Stocky
